import Mathlib

/-!
Shallow embedding of the fetal-health prediction pipeline, translated from
`src/app.py` (module-level functions `validate_input` / `make_prediction`)
and `src/agent.py` (class `FetalHealthAgent`, methods `validate_input` /
`make_prediction`).

Modelling conventions:
* Python numbers (int/float) are modelled as exact rationals `ℚ`.
* A Python value supplied in a JSON request is modelled by `Value`:
  `num q` for an int/float (Python `bool` is an `int` subtype, hence `num`),
  `numStr q` for a string that Python `float()` parses to `q`,
  `badVal` for everything else (unparseable string, None, list, dict, ...).
* A request dict is an association list `List (String × Value)`, iterated in
  insertion order exactly as `dict.items()` is; key lookup is `List.lookup`.
* Python exceptions are modelled by `Option`: the `try`/`except` blocks of
  `make_prediction` turn a `none` into the "Prediction error" result.
* error messages built with f-strings are modelled structurally: each message
  constructor carries exactly the values interpolated into the f-string.
* The classifier artifact (`model`) is an opaque function pair; `model = None`
  (load failure) is the `Option.none` case of the parameter.
* `datetime.now().isoformat()` is an opaque `ts : String` parameter.
-/

namespace FetalHealth

/-- A Python value as it can arrive in a prediction request. -/
inductive Value where
  | num (q : ℚ)
  | numStr (q : ℚ)
  | badVal
  deriving DecidableEq, Repr

/-- A prediction request: a Python dict from feature name to value,
in insertion order. -/
abbrev Request := List (String × Value)

/-- Python `float(value)`: succeeds on ints/floats and on numeric strings,
raises (here: `none`) otherwise. -/
def pyFloat : Value → Option ℚ
  | .num q => some q
  | .numStr q => some q
  | .badVal => none

/-- Python `isinstance(value, (int, float))`. -/
def isNum : Value → Bool
  | .num _ => true
  | _ => false

/-- `FEATURE_NAMES` from `app.py`; `self.feature_names` in `agent.py` is the
identical list. -/
def FEATURE_NAMES : List String :=
  ["prolongued_decelerations",
   "abnormal_short_term_variability",
   "percentage_abnormal_long_term_variability",
   "histogram_variance",
   "histogram_median",
   "mean_long_term_variability",
   "histogram_mode",
   "accelerations"]

/-- `FEATURE_RANGES` from `app.py`; the local `ranges` dict in
`agent.validate_input` is the identical table. -/
def FEATURE_RANGES : List (String × ℚ × ℚ) :=
  [("prolongued_decelerations", 0, 0.005),
   ("abnormal_short_term_variability", 12, 87),
   ("percentage_abnormal_long_term_variability", 0, 91),
   ("histogram_variance", 0, 269),
   ("histogram_median", 77, 186),
   ("mean_long_term_variability", 0, 50.7),
   ("histogram_mode", 60, 187),
   ("accelerations", 0, 0.019)]

/-- Dict lookup `FEATURE_RANGES[feature]`, i.e. the test
`feature in FEATURE_RANGES` together with the bounds it yields. -/
def rangeOf (f : String) : Option (ℚ × ℚ) :=
  FEATURE_RANGES.lookup f

/-- `[f for f in FEATURE_NAMES if f not in data]` — the missing-feature list,
identical in both variants. -/
def missingOf (r : Request) : List String :=
  FEATURE_NAMES.filter (fun f => (r.lookup f).isNone)

/-- A Python list comprehension whose element expression may raise
(`none` aborts the whole comprehension, as an exception would). -/
def mapOption {α β : Type} (g : α → Option β) : List α → Option (List β)
  | [] => some []
  | a :: l =>
    match g a, mapOption g l with
    | some b, some v => some (b :: v)
    | _, _ => none

/-- The loaded classifier artifact: `model.predict(X)[0]` on the single row,
and the optional `predict_proba(X)[0]` capability
(`hasattr(model, 'predict_proba')`). -/
structure PyModel where
  predict : List ℚ → ℚ
  predict_proba : Option (List ℚ → List ℚ)

/-- The result dict of `make_prediction` in either variant. Keys that a given
branch does not put in the dict are `none` (error payload type `ε` differs
between the two variants). -/
structure PredResult (ε : Type) where
  success : Bool
  error : Option ε
  prediction : Option String
  confidence : Option (List (String × ℚ))
  timestamp : Option String
  input_data : Option Request
  deriving DecidableEq

namespace App

/-- One entry of the `errors` list of `app.validate_input`, carrying exactly
the data interpolated into the corresponding f-string:
`"Missing features: {', '.join(missing_features)}"`,
`"{feature}: value {value} outside range [{min_val}, {max_val}]"`,
`"{feature}: invalid numeric value"`. -/
inductive VErr where
  | missing (names : List String)
  | range (feature : String) (value : ℚ) (lo hi : ℚ)
  | badNum (feature : String)
  deriving DecidableEq, Repr

/-- Body of the `for feature, value in data.items():` loop of
`app.validate_input`: the errors contributed by one item (the range check
happens only for recognized features and only after `float()` succeeds). -/
def itemErrs : String × Value → List VErr
  | (f, v) =>
    match rangeOf f with
    | none => []
    | some (lo, hi) =>
      match pyFloat v with
      | none => [.badNum f]
      | some q => if lo ≤ q ∧ q ≤ hi then [] else [.range f q lo hi]

/-- `app.validate_input(data)`: the accumulated `errors` list (missing-feature
entry first, then the per-item errors in iteration order). -/
def validate_input (data : Request) : List VErr :=
  (if (missingOf data).isEmpty then [] else [.missing (missingOf data)])
    ++ data.flatMap itemErrs

/-- `CLASS_LABELS` dict of `app.py`, keyed by the float class codes; `none`
is a `KeyError`. -/
def CLASS_LABELS (code : ℚ) : Option String :=
  if code = 1 then some "NORMAL"
  else if code = 2 then some "SUSPECT"
  else if code = 3 then some "PATHOLOGICAL"
  else none

/-- Error payload of a failing `app.make_prediction` result
(the `"error"` value). -/
inductive Err where
  | modelNotLoaded
  | validationFailed (errs : List VErr)
  | predictionError
  deriving DecidableEq

/-- The failure dict `{"success": False, "error": e, "prediction": None,
"confidence": None}` common to every failure branch. -/
def errResult (e : Err) : PredResult Err :=
  ⟨false, some e, none, none, none, none⟩

/-- `[float(data[feature]) for feature in FEATURE_NAMES]`; a `KeyError` or a
failing `float()` is `none` (it would propagate to the `except` clause). -/
def vectorize (data : Request) : Option (List ℚ) :=
  mapOption (fun f => (data.lookup f).bind pyFloat) FEATURE_NAMES

/-- `app.make_prediction(data)` with the module-level `model` and the
timestamp passed explicitly. -/
def make_prediction (model : Option PyModel) (ts : String) (data : Request) :
    PredResult Err :=
  match model with
  | none => errResult .modelNotLoaded
  | some m =>
    if (validate_input data).isEmpty then
      match vectorize data with
      | none => errResult .predictionError
      | some feats =>
        match CLASS_LABELS (m.predict feats) with
        | none => errResult .predictionError
        | some result =>
          match m.predict_proba with
          | none => ⟨true, none, some result, none, some ts, some data⟩
          | some pp =>
            match (pp feats).get? 0, (pp feats).get? 1, (pp feats).get? 2 with
            | some p0, some p1, some p2 =>
              ⟨true, none, some result,
               some [("NORMAL", p0), ("SUSPECT", p1), ("PATHOLOGICAL", p2)],
               some ts, some data⟩
            | _, _, _ => errResult .predictionError
    else errResult (.validationFailed (validate_input data))

end App

namespace Agent

/-- `self.labels` of `FetalHealthAgent`. -/
def labels : List String := ["NORMAL", "SUSPECT", "PATHOLOGICAL"]

/-- The message string returned by `agent.validate_input`, modelled
structurally; each constructor carries exactly the data interpolated into the
corresponding f-string:
`"Missing features: {', '.join(missing_features)}"`,
`"Invalid data type for {feature}: expected number, got {type(value)}"`,
`"Value for {feature} should be between {min_val} and {max_val}"`
(note: this last message does not contain the offending value),
`"Input validation successful"`. -/
inductive Msg where
  | missingMsg (names : List String)
  | typeMsg (feature : String)
  | rangeMsg (feature : String) (lo hi : ℚ)
  | okMsg
  deriving DecidableEq, Repr

/-- Body of the `for feature, value in data.items():` loop of
`agent.validate_input`: the first failure an item produces, if any.
The `isinstance` type check runs for every item (recognized or not), then
the range check for recognized features. -/
def itemErr : String × Value → Option Msg
  | (f, v) =>
    match v with
    | .num q =>
      match rangeOf f with
      | some (lo, hi) =>
        if lo ≤ q ∧ q ≤ hi then none else some (.rangeMsg f lo hi)
      | none => none
    | _ => some (.typeMsg f)

/-- `agent.validate_input(data) -> (bool, message)`: missing check first
(returning all missing names), then the item loop returning on the first
type/range failure. -/
def validate_input (data : Request) : Bool × Msg :=
  if (missingOf data).isEmpty then
    match data.findSome? itemErr with
    | some e => (false, e)
    | none => (true, .okMsg)
  else (false, .missingMsg (missingOf data))

/-- Error payload of a failing `agent.make_prediction` result. -/
inductive Err where
  | modelNotLoaded
  | validationFailed (msg : Msg)
  | predictionError
  deriving DecidableEq

/-- The failure dict common to every failure branch of
`agent.make_prediction`. -/
def errResult (e : Err) : PredResult Err :=
  ⟨false, some e, none, none, none, none⟩

/-- `[data[feature] for feature in self.feature_names]`; values are used
directly as numbers (no `float()` conversion), so a missing key or a
non-numeric value is a failure (`none`). -/
def vectorize (data : Request) : Option (List ℚ) :=
  mapOption
    (fun f => (data.lookup f).bind
      (fun v => match v with | .num q => some q | _ => none))
    FEATURE_NAMES

/-- Python `int(x)` truncates toward zero; `q` is in lowest terms, so this is
truncating integer division of numerator by denominator. -/
def pyTrunc (q : ℚ) : Int :=
  q.num.tdiv q.den

/-- Python list indexing `xs[i]`, including negative-index wraparound;
`none` is an `IndexError`. -/
def pyIndex {α : Type} (xs : List α) (i : Int) : Option α :=
  if (if i < 0 then i + xs.length else i) < 0 then none
  else xs.get? (if i < 0 then i + xs.length else i).toNat

/-- `agent.make_prediction(data)` with `self.model` and the timestamp passed
explicitly. The class code is mapped by `self.labels[int(prediction) - 1]`;
confidence zips `self.labels` with the probability row. -/
def make_prediction (model : Option PyModel) (ts : String) (data : Request) :
    PredResult Err :=
  match model with
  | none => errResult .modelNotLoaded
  | some m =>
    match validate_input data with
    | (false, msg) => errResult (.validationFailed msg)
    | (true, _) =>
      match vectorize data with
      | none => errResult .predictionError
      | some feats =>
        match pyIndex labels (pyTrunc (m.predict feats) - 1) with
        | none => errResult .predictionError
        | some result =>
          ⟨true, none, some result,
           (match m.predict_proba with
            | none => none
            | some pp => some (labels.zip (pp feats))),
           some ts, some data⟩

end Agent

/-- The sample request of `app.api_sample` / `agent.get_sample_data`
(all eight features, numeric and in range). -/
def sampleReq : Request :=
  [("prolongued_decelerations", .num 0.002),
   ("abnormal_short_term_variability", .num 50),
   ("percentage_abnormal_long_term_variability", .num 45),
   ("histogram_variance", .num 134),
   ("histogram_median", .num 130),
   ("mean_long_term_variability", .num 25),
   ("histogram_mode", .num 120),
   ("accelerations", .num 0.01)]

/-- A classifier stub that always returns the class code `c` and offers no
probability output. -/
def constModel (c : ℚ) : PyModel :=
  ⟨fun _ => c, none⟩

/-! ### General list helper lemmas -/

theorem findSome?_none_iff {α β : Type} (f : α → Option β) :
    ∀ l : List α, l.findSome? f = none ↔ ∀ x ∈ l, f x = none
  | [] => by simp
  | a :: l => by
    rw [List.findSome?_cons]
    cases h : f a with
    | none => simp [h, findSome?_none_iff f l]
    | some b => simp [h]

theorem findSome?_append_none {α β : Type} (f : α → Option β) (l₂ : List α) :
    ∀ l₁ : List α, (∀ x ∈ l₁, f x = none) →
      (l₁ ++ l₂).findSome? f = l₂.findSome? f
  | [], _ => rfl
  | a :: l₁, h => by
    rw [List.cons_append, List.findSome?_cons, h a (by simp)]
    exact findSome?_append_none f l₂ l₁ (fun x hx => h x (by simp [hx]))

theorem lookup_mem {β : Type} (f : String) (v : β) :
    ∀ r : List (String × β), r.lookup f = some v → (f, v) ∈ r
  | [], h => by simp [List.lookup] at h
  | (k, b) :: r, h => by
    rw [List.lookup] at h
    by_cases hk : f == k
    · simp only [hk] at h
      cases h
      have : f = k := by simpa [beq_iff_eq] using hk
      subst this
      exact List.mem_cons_self _ _
    · simp only [Bool.not_eq_true] at hk
      rw [hk] at h
      exact List.mem_cons_of_mem _ (lookup_mem f v r h)

theorem lookup_append_some {β : Type} (f : String) (v : β) (s : List (String × β)) :
    ∀ r : List (String × β), r.lookup f = some v → (r ++ s).lookup f = some v
  | [], h => by simp [List.lookup] at h
  | (k, b) :: r, h => by
    rw [List.cons_append, List.lookup]
    rw [List.lookup] at h
    cases hk : f == k with
    | true => simpa [hk] using h
    | false =>
      rw [hk] at h
      exact lookup_append_some f v s r h

theorem mapOption_eq_some {α β : Type} (g : α → Option β) :
    ∀ l : List α, (∀ x ∈ l, (g x).isSome) →
      ∃ v, mapOption g l = some v ∧ v.length = l.length ∧
        ∀ i : ℕ, v.get? i = (l.get? i).bind g
  | [], _ => ⟨[], rfl, rfl, by intro i; simp⟩
  | a :: l, h => by
    obtain ⟨b, hb⟩ := Option.isSome_iff_exists.mp (h a (by simp))
    obtain ⟨v, hv, hlen, hget⟩ :=
      mapOption_eq_some g l (fun x hx => h x (by simp [hx]))
    refine ⟨b :: v, ?_, by simp [hlen], ?_⟩
    · simp [mapOption, hb, hv]
    · intro i
      cases i with
      | zero => simp [hb]
      | succ j => simpa using hget j

/-! ### Inversion lemmas for the two validators -/

/-- `missingOf r = []` says exactly that every schema feature is a key. -/
theorem missingOf_eq_nil_iff (r : Request) :
    missingOf r = [] ↔ ∀ f ∈ FEATURE_NAMES, (r.lookup f).isSome := by
  simp [missingOf, List.filter_eq_nil_iff, Option.isNone_iff_eq_none,
    Option.isSome_iff_ne_none]

/-- Membership in the missing list characterized. -/
theorem mem_missingOf_iff (r : Request) (f : String) :
    f ∈ missingOf r ↔ f ∈ FEATURE_NAMES ∧ r.lookup f = none := by
  simp [missingOf, List.mem_filter, Option.isNone_iff_eq_none]

/-- Extra keys appended to a request cannot make a feature go missing. -/
theorem missingOf_append_eq_nil (r extra : Request) (h : missingOf r = []) :
    missingOf (r ++ extra) = [] := by
  rw [missingOf_eq_nil_iff] at h ⊢
  intro f hf
  obtain ⟨v, hv⟩ := Option.isSome_iff_exists.mp (h f hf)
  rw [lookup_append_some f v extra r hv]
  rfl

/-- Every schema feature has a range entry (the two tables cover the same
eight names). -/
theorem rangeOf_of_mem_features (f : String) (hf : f ∈ FEATURE_NAMES) :
    ∃ lo hi, rangeOf f = some (lo, hi) := by
  fin_cases hf <;> exact ⟨_, _, rfl⟩

/-- An unrecognized feature contributes no error in `app.validate_input`. -/
theorem itemErrs_unrecognized (f : String) (v : Value) (h : rangeOf f = none) :
    App.itemErrs (f, v) = [] := by
  simp [App.itemErrs, h]

/-- A recognized feature whose value converts into the inclusive range
contributes no error in `app.validate_input`. -/
theorem itemErrs_in_range (f : String) (v : Value) (q lo hi : ℚ)
    (hr : rangeOf f = some (lo, hi)) (hv : pyFloat v = some q)
    (h1 : lo ≤ q) (h2 : q ≤ hi) : App.itemErrs (f, v) = [] := by
  simp [App.itemErrs, hr, hv, h1, h2]

/-- A recognized feature whose value converts strictly outside the range
contributes exactly the range error, carrying the value and both bounds. -/
theorem itemErrs_out_of_range (f : String) (v : Value) (q lo hi : ℚ)
    (hr : rangeOf f = some (lo, hi)) (hv : pyFloat v = some q)
    (h : q < lo ∨ hi < q) : App.itemErrs (f, v) = [.range f q lo hi] := by
  have : ¬(lo ≤ q ∧ q ≤ hi) := by
    rcases h with h | h
    · exact fun hc => absurd hc.1 (not_le.mpr h)
    · exact fun hc => absurd hc.2 (not_le.mpr h)
  simp [App.itemErrs, hr, hv, this]

/-- A recognized feature whose value `float()` cannot convert contributes
exactly the invalid-numeric error. -/
theorem itemErrs_bad_value (f : String) (v : Value) (lo hi : ℚ)
    (hr : rangeOf f = some (lo, hi)) (hv : pyFloat v = none) :
    App.itemErrs (f, v) = [.badNum f] := by
  simp [App.itemErrs, hr, hv]

/-- Inversion: a recognized item contributing no error in
`app.validate_input` converts to a number inside the inclusive range. -/
theorem itemErrs_eq_nil_inv (f : String) (v : Value) (lo hi : ℚ)
    (hr : rangeOf f = some (lo, hi)) (h : App.itemErrs (f, v) = []) :
    ∃ q, pyFloat v = some q ∧ lo ≤ q ∧ q ≤ hi := by
  cases hv : pyFloat v with
  | none => simp [App.itemErrs, hr, hv] at h
  | some q =>
    by_cases hb : lo ≤ q ∧ q ≤ hi
    · exact ⟨q, hv ▸ rfl, hb⟩
    · simp [App.itemErrs, hr, hv, hb] at h

/-- A non-numeric value makes the agent item loop fail with the type
message, regardless of whether the feature is recognized. -/
theorem agent_itemErr_not_num (f : String) (v : Value) (h : isNum v = false) :
    Agent.itemErr (f, v) = some (.typeMsg f) := by
  cases v with
  | num q => simp [isNum] at h
  | numStr q => rfl
  | badVal => rfl

/-- A numeric value for an unrecognized feature passes the agent item loop. -/
theorem agent_itemErr_unrecognized (f : String) (q : ℚ)
    (h : rangeOf f = none) : Agent.itemErr (f, .num q) = none := by
  simp [Agent.itemErr, h]

/-- A numeric in-range value for a recognized feature passes the agent item
loop. -/
theorem agent_itemErr_in_range (f : String) (q lo hi : ℚ)
    (hr : rangeOf f = some (lo, hi)) (h1 : lo ≤ q) (h2 : q ≤ hi) :
    Agent.itemErr (f, .num q) = none := by
  simp [Agent.itemErr, hr, h1, h2]

/-- A numeric value strictly outside the range of a recognized feature makes
the agent item loop fail with the range message, which carries only the
feature name and the two bounds (not the value). -/
theorem agent_itemErr_out_of_range (f : String) (q lo hi : ℚ)
    (hr : rangeOf f = some (lo, hi)) (h : q < lo ∨ hi < q) :
    Agent.itemErr (f, .num q) = some (.rangeMsg f lo hi) := by
  have : ¬(lo ≤ q ∧ q ≤ hi) := by
    rcases h with h | h
    · exact fun hc => absurd hc.1 (not_le.mpr h)
    · exact fun hc => absurd hc.2 (not_le.mpr h)
  simp [Agent.itemErr, hr, this]

/-- Inversion: an item passing the agent loop is numeric, and in range when
recognized. -/
theorem agent_itemErr_eq_none_inv (f : String) (v : Value)
    (h : Agent.itemErr (f, v) = none) :
    ∃ q, v = .num q ∧ ∀ lo hi, rangeOf f = some (lo, hi) → lo ≤ q ∧ q ≤ hi := by
  cases v with
  | num q =>
    refine ⟨q, rfl, fun lo hi hr => ?_⟩
    by_cases hb : lo ≤ q ∧ q ≤ hi
    · exact hb
    · simp [Agent.itemErr, hr, hb] at h
  | numStr q => simp [Agent.itemErr] at h
  | badVal => simp [Agent.itemErr] at h

/-- `app.validate_input` returns no error exactly when no feature is missing
and no item contributes an error. -/
theorem app_validate_eq_nil_iff (r : Request) :
    App.validate_input r = [] ↔
      missingOf r = [] ∧ ∀ x ∈ r, App.itemErrs x = [] := by
  constructor
  · intro h
    rw [App.validate_input, List.append_eq_nil] at h
    obtain ⟨h1, h2⟩ := h
    constructor
    · by_cases hm : (missingOf r).isEmpty
      · exact List.isEmpty_iff.mp hm
      · rw [if_neg hm] at h1; simp at h1
    · exact List.flatMap_eq_nil_iff.mp h2
  · intro ⟨h1, h2⟩
    rw [App.validate_input, h1]
    simp [List.flatMap_eq_nil_iff.mpr h2]

/-- `agent.validate_input` succeeds exactly when no feature is missing and
no item fails the loop; the success message is then the fixed OK message. -/
theorem agent_validate_eq_ok_iff (r : Request) :
    Agent.validate_input r = (true, .okMsg) ↔
      missingOf r = [] ∧ ∀ x ∈ r, Agent.itemErr x = none := by
  rw [Agent.validate_input]
  constructor
  · intro h
    by_cases hm : (missingOf r).isEmpty
    · rw [if_pos hm] at h
      refine ⟨List.isEmpty_iff.mp hm, ?_⟩
      cases hf : r.findSome? Agent.itemErr with
      | none => exact (findSome?_none_iff Agent.itemErr r).mp hf
      | some e => rw [hf] at h; simp at h
    · rw [if_neg hm] at h; simp at h
  · intro ⟨h1, h2⟩
    rw [if_pos (List.isEmpty_iff.mpr h1),
      (findSome?_none_iff Agent.itemErr r).mpr h2]

/-- The success flag of `agent.validate_input` is `true` only in the OK case. -/
theorem agent_validate_fst_true (r : Request)
    (h : (Agent.validate_input r).1 = true) :
    Agent.validate_input r = (true, .okMsg) := by
  rw [Agent.validate_input] at h ⊢
  by_cases hm : (missingOf r).isEmpty
  · rw [if_pos hm] at h ⊢
    cases hf : r.findSome? Agent.itemErr with
    | none => rfl
    | some e => rw [hf] at h; simp at h
  · rw [if_neg hm] at h; simp at h

/-! ### Concrete requests and their evaluations -/

/-- The feature row the sample request vectorizes to, in schema order. -/
def sampleVec : List ℚ := [0.002, 50, 45, 134, 130, 25, 120, 0.01]

theorem sample_app_validate : App.validate_input sampleReq = [] := by
  simp [App.validate_input, missingOf, FEATURE_NAMES, App.itemErrs, rangeOf,
    FEATURE_RANGES, pyFloat, sampleReq, List.lookup] <;> norm_num

theorem sample_agent_validate :
    Agent.validate_input sampleReq = (true, .okMsg) := by
  simp [Agent.validate_input, missingOf, FEATURE_NAMES, Agent.itemErr,
    rangeOf, FEATURE_RANGES, sampleReq, List.lookup, List.findSome?]
    <;> norm_num

theorem sample_app_vectorize : App.vectorize sampleReq = some sampleVec := by
  simp [App.vectorize, mapOption, FEATURE_NAMES, sampleReq, List.lookup,
    pyFloat, sampleVec]

theorem sample_agent_vectorize :
    Agent.vectorize sampleReq = some sampleVec := by
  simp [Agent.vectorize, mapOption, FEATURE_NAMES, sampleReq, List.lookup,
    sampleVec]

/-! ### Shape lemmas for the two pipelines -/

/-- Every `app.make_prediction` result is either one of the failure dicts or
the success dict echoing the input. -/
theorem app_make_prediction_cases (model : Option PyModel) (ts : String)
    (data : Request) :
    (∃ e, App.make_prediction model ts data = App.errResult e) ∨
    (∃ label conf, App.make_prediction model ts data =
      ⟨true, none, some label, conf, some ts, some data⟩) := by
  cases model with
  | none => exact .inl ⟨_, rfl⟩
  | some m =>
    rw [App.make_prediction]
    by_cases hval : (App.validate_input data).isEmpty
    · rw [if_pos hval]
      cases hv : App.vectorize data with
      | none => exact .inl ⟨_, rfl⟩
      | some feats =>
        dsimp only
        cases hc : App.CLASS_LABELS (m.predict feats) with
        | none => exact .inl ⟨_, rfl⟩
        | some label =>
          dsimp only
          cases hp : m.predict_proba with
          | none => exact .inr ⟨label, none, rfl⟩
          | some pp =>
            dsimp only
            cases h0 : (pp feats).get? 0 with
            | none =>
              cases h1 : (pp feats).get? 1 <;> cases h2 : (pp feats).get? 2
                <;> exact .inl ⟨_, rfl⟩
            | some p0 =>
              cases h1 : (pp feats).get? 1 with
              | none =>
                cases h2 : (pp feats).get? 2 <;> exact .inl ⟨_, rfl⟩
              | some p1 =>
                cases h2 : (pp feats).get? 2 with
                | none => exact .inl ⟨_, rfl⟩
                | some p2 => exact .inr ⟨label, _, rfl⟩
    · rw [if_neg hval]
      exact .inl ⟨_, rfl⟩

/-- Every `agent.make_prediction` result is either one of the failure dicts
or the success dict echoing the input. -/
theorem agent_make_prediction_cases (model : Option PyModel) (ts : String)
    (data : Request) :
    (∃ e, Agent.make_prediction model ts data = Agent.errResult e) ∨
    (∃ label conf, Agent.make_prediction model ts data =
      ⟨true, none, some label, conf, some ts, some data⟩) := by
  cases model with
  | none => exact .inl ⟨_, rfl⟩
  | some m =>
    rw [Agent.make_prediction]
    rcases hval : Agent.validate_input data with ⟨b, msg⟩
    cases b with
    | false => exact .inl ⟨_, rfl⟩
    | true =>
      dsimp only
      cases hv : Agent.vectorize data with
      | none => exact .inl ⟨_, rfl⟩
      | some feats =>
        dsimp only
        cases hi : Agent.pyIndex Agent.labels (Agent.pyTrunc (m.predict feats) - 1) with
        | none => exact .inl ⟨_, rfl⟩
        | some label => exact .inr ⟨label, _, rfl⟩

/-! ### Claim theorems -/

/-- C9: when the model failed to load (`model is None`), every call to either
pipeline returns the fixed model-not-loaded failure dict, for every request
and timestamp — before validation and without any inference step. The model
handle is set once at process start and never retried: `make_prediction` is a
pure function of the (permanently `none`) handle, so the unavailable state
persists for the process lifetime. -/
theorem C9_model_unavailable_fails_fast :
    ∀ (ts : String) (r : Request),
      App.make_prediction none ts r = App.errResult .modelNotLoaded ∧
      Agent.make_prediction none ts r = Agent.errResult .modelNotLoaded :=
  fun _ _ => ⟨rfl, rfl⟩

/-- C10: in both variants the `model is None` check precedes validation:
with the model unavailable the result is independent of the request (so
validation is never consulted, and requests that would fail validation still
get the model-not-loaded error), and every failure result has
`success = False` with `prediction` and `confidence` both `None`. -/
theorem C10_unavailable_before_validation_and_failure_shape :
    (∀ (ts : String) (r₁ r₂ : Request),
      App.make_prediction none ts r₁ = App.make_prediction none ts r₂ ∧
      Agent.make_prediction none ts r₁ = Agent.make_prediction none ts r₂) ∧
    (∀ (ts : String) (r : Request),
      (App.make_prediction none ts r).error = some .modelNotLoaded ∧
      (Agent.make_prediction none ts r).error = some .modelNotLoaded) ∧
    (∀ (model : Option PyModel) (ts : String) (r : Request),
      ((App.make_prediction model ts r).success = false →
        (App.make_prediction model ts r).prediction = none ∧
        (App.make_prediction model ts r).confidence = none) ∧
      ((Agent.make_prediction model ts r).success = false →
        (Agent.make_prediction model ts r).prediction = none ∧
        (Agent.make_prediction model ts r).confidence = none)) := by
  refine ⟨fun ts r₁ r₂ => ⟨rfl, rfl⟩, fun ts r => ⟨rfl, rfl⟩,
    fun model ts r => ⟨?_, ?_⟩⟩
  · intro h
    rcases app_make_prediction_cases model ts r with ⟨e, he⟩ | ⟨label, conf, he⟩
    · rw [he]; exact ⟨rfl, rfl⟩
    · rw [he] at h; simp at h
  · intro h
    rcases agent_make_prediction_cases model ts r with ⟨e, he⟩ | ⟨label, conf, he⟩
    · rw [he]; exact ⟨rfl, rfl⟩
    · rw [he] at h; simp at h

/-- C10 witness: the failure-shape conjunct applied at the concrete
unavailable-model call on the empty request. -/
theorem C10_witness :
    (App.make_prediction none "t" []).success = false ∧
    (App.make_prediction none "t" []).prediction = none ∧
    (App.make_prediction none "t" []).confidence = none := by
  have h := (C10_unavailable_before_validation_and_failure_shape.2.2
    none "t" []).1 (by rfl)
  exact ⟨rfl, h⟩

/-- C8: whenever either pipeline produces a success result, the echoed
`input_data` is the original request object, unmodified. -/
theorem C8_round_trip_echoed_input :
    ∀ (model : Option PyModel) (ts : String) (r : Request),
      ((App.make_prediction model ts r).success = true →
        (App.make_prediction model ts r).input_data = some r) ∧
      ((Agent.make_prediction model ts r).success = true →
        (Agent.make_prediction model ts r).input_data = some r) := by
  intro model ts r
  constructor
  · intro h
    rcases app_make_prediction_cases model ts r with ⟨e, he⟩ | ⟨label, conf, he⟩
    · rw [he] at h; simp [App.errResult] at h
    · rw [he]
  · intro h
    rcases agent_make_prediction_cases model ts r with ⟨e, he⟩ | ⟨label, conf, he⟩
    · rw [he] at h; simp [Agent.errResult] at h
    · rw [he]

/-- C8 witness: the round trip on the concrete sample request with a stub
classifier returning class code 1, in both variants. -/
theorem C8_witness :
    (App.make_prediction (some (constModel 1)) "t" sampleReq).input_data =
      some sampleReq ∧
    (Agent.make_prediction (some (constModel 1)) "t" sampleReq).input_data =
      some sampleReq := by
  have happ : App.make_prediction (some (constModel 1)) "t" sampleReq =
      ⟨true, none, some "NORMAL", none, some "t", some sampleReq⟩ := by
    rw [App.make_prediction, if_pos (by rw [sample_app_validate]; rfl),
      sample_app_vectorize]
    norm_num [constModel, App.CLASS_LABELS]
  have hagent : Agent.make_prediction (some (constModel 1)) "t" sampleReq =
      ⟨true, none, some "NORMAL", none, some "t", some sampleReq⟩ := by
    rw [Agent.make_prediction, sample_agent_validate, sample_agent_vectorize]
    norm_num [constModel, Agent.pyTrunc, Agent.pyIndex, Agent.labels]
  exact ⟨(C8_round_trip_echoed_input (some (constModel 1)) "t" sampleReq).1
      (by rw [happ]),
    (C8_round_trip_echoed_input (some (constModel 1)) "t" sampleReq).2
      (by rw [hagent])⟩

/-- C7: when validation fails, both pipelines return the validation-failure
dict immediately; the right-hand sides do not mention the classifier `m`, so
`predict` / `predict_proba` are never invoked on such a request. -/
theorem C7_validation_failure_skips_classifier :
    (∀ (m : PyModel) (ts : String) (r : Request),
      App.validate_input r ≠ [] →
      App.make_prediction (some m) ts r =
        App.errResult (.validationFailed (App.validate_input r))) ∧
    (∀ (m : PyModel) (ts : String) (r : Request),
      (Agent.validate_input r).1 = false →
      Agent.make_prediction (some m) ts r =
        Agent.errResult (.validationFailed (Agent.validate_input r).2)) := by
  constructor
  · intro m ts r h
    rw [App.make_prediction, if_neg]
    simpa [List.isEmpty_iff] using h
  · intro m ts r h
    rcases hv : Agent.validate_input r with ⟨b, msg⟩
    rw [hv] at h
    simp only at h
    subst h
    rw [Agent.make_prediction, hv]

/-- C7 witness: both conjuncts applied to the empty request (all features
missing) with a stub classifier. -/
theorem C7_witness :
    App.make_prediction (some (constModel 1)) "t" [] =
      App.errResult (.validationFailed [.missing FEATURE_NAMES]) ∧
    Agent.make_prediction (some (constModel 1)) "t" [] =
      Agent.errResult (.validationFailed (.missingMsg FEATURE_NAMES)) := by
  have hv : App.validate_input [] = [.missing FEATURE_NAMES] := by
    simp [App.validate_input, missingOf, FEATURE_NAMES, List.lookup]
  have hv' : Agent.validate_input [] = (false, .missingMsg FEATURE_NAMES) := by
    simp [Agent.validate_input, missingOf, FEATURE_NAMES, List.lookup]
  constructor
  · have := (C7_validation_failure_skips_classifier.1 (constModel 1) "t" []
      (by rw [hv]; simp))
    rw [hv] at this
    exact this
  · have := (C7_validation_failure_skips_classifier.2 (constModel 1) "t" []
      (by rw [hv']))
    rw [hv'] at this
    exact this

/-- C1 (code bug exhibit): the code-to-label mapping sends 1 ↦ NORMAL,
2 ↦ SUSPECT, 3 ↦ PATHOLOGICAL in both variants, and the app variant turns a
class code outside {1,2,3} (here 0) into an error result via the dict
`KeyError`; but the agent variant computes `self.labels[int(code) - 1]`, and
Python's negative indexing makes class code 0 silently yield the label
PATHOLOGICAL on a success result instead of surfacing an error. -/
theorem C1_class_code_mapping_bug :
    App.CLASS_LABELS 1 = some "NORMAL" ∧
    App.CLASS_LABELS 2 = some "SUSPECT" ∧
    App.CLASS_LABELS 3 = some "PATHOLOGICAL" ∧
    App.CLASS_LABELS 0 = none ∧
    App.CLASS_LABELS 4 = none ∧
    Agent.pyIndex Agent.labels (Agent.pyTrunc 1 - 1) = some "NORMAL" ∧
    Agent.pyIndex Agent.labels (Agent.pyTrunc 2 - 1) = some "SUSPECT" ∧
    Agent.pyIndex Agent.labels (Agent.pyTrunc 3 - 1) = some "PATHOLOGICAL" ∧
    App.make_prediction (some (constModel 0)) "t" sampleReq =
      App.errResult .predictionError ∧
    Agent.make_prediction (some (constModel 0)) "t" sampleReq =
      ⟨true, none, some "PATHOLOGICAL", none, some "t", some sampleReq⟩ := by
  refine ⟨by norm_num [App.CLASS_LABELS], by norm_num [App.CLASS_LABELS],
    by norm_num [App.CLASS_LABELS], by norm_num [App.CLASS_LABELS],
    by norm_num [App.CLASS_LABELS],
    by norm_num [Agent.pyIndex, Agent.pyTrunc, Agent.labels],
    by norm_num [Agent.pyIndex, Agent.pyTrunc, Agent.labels],
    by norm_num [Agent.pyIndex, Agent.pyTrunc, Agent.labels] <;> rfl, ?_, ?_⟩
  · rw [App.make_prediction, if_pos (by rw [sample_app_validate]; rfl),
      sample_app_vectorize]
    norm_num [constModel, App.CLASS_LABELS]
  · rw [Agent.make_prediction, sample_agent_validate, sample_agent_vectorize]
    norm_num [constModel, Agent.pyTrunc, Agent.pyIndex, Agent.labels] <;> rfl

/-- C2: whenever at least one schema feature is absent, both validators fail
with a missing-features error naming the list `missingOf r`, collected in one
pass; and that list contains exactly the schema features absent from the
request. -/
theorem C2_missing_features_collected :
    ∀ r : Request, missingOf r ≠ [] →
      App.validate_input r =
        .missing (missingOf r) :: r.flatMap App.itemErrs ∧
      Agent.validate_input r = (false, .missingMsg (missingOf r)) ∧
      ∀ f, f ∈ missingOf r ↔ f ∈ FEATURE_NAMES ∧ r.lookup f = none := by
  intro r h
  have hne : ¬(missingOf r).isEmpty := by simpa [List.isEmpty_iff] using h
  refine ⟨?_, ?_, fun f => mem_missingOf_iff r f⟩
  · rw [App.validate_input, if_neg hne]
    rfl
  · rw [Agent.validate_input, if_neg hne]

/-- C2 witness: the empty request (concrete scenario C of the spec) fails in
both variants listing all eight feature names. -/
theorem C2_witness :
    App.validate_input [] = [.missing FEATURE_NAMES] ∧
    Agent.validate_input [] = (false, .missingMsg FEATURE_NAMES) := by
  have hm : missingOf ([] : Request) = FEATURE_NAMES := by
    simp [missingOf, List.lookup]
  obtain ⟨h1, h2, _⟩ := C2_missing_features_collected []
    (by rw [hm]; simp [FEATURE_NAMES])
  rw [hm] at h1 h2
  exact ⟨h1, h2⟩

/-- The tail shared by the out-of-range scenario requests: the seven sample
entries other than `prolongued_decelerations`, all numeric and in range. -/
def scenarioBTail : Request :=
  [("abnormal_short_term_variability", .num 50),
   ("percentage_abnormal_long_term_variability", .num 45),
   ("histogram_variance", .num 134),
   ("histogram_median", .num 130),
   ("mean_long_term_variability", .num 25),
   ("histogram_mode", .num 120),
   ("accelerations", .num 0.01)]

/-- Concrete scenario B of the spec: the sample request with
`prolongued_decelerations` set to 999 (strictly above its bound 0.005). -/
def scenarioB : Request :=
  ("prolongued_decelerations", .num 999) :: scenarioBTail

/-- The same request with the offending value 1000 instead of 999. -/
def scenarioBVar : Request :=
  ("prolongued_decelerations", .num 1000) :: scenarioBTail

/-- C3 counterexample: the agent variant's range failure carries only the
feature name and the bounds — two requests that differ only in the offending
value (999 vs 1000) produce the identical failure message, so the message
cannot name the offending value, contrary to the claim. -/
theorem C3_counterexample :
    Agent.validate_input scenarioB =
      (false, .rangeMsg "prolongued_decelerations" 0 0.005) ∧
    Agent.validate_input scenarioBVar = Agent.validate_input scenarioB ∧
    scenarioB ≠ scenarioBVar := by
  refine ⟨?_, ?_, ?_⟩
  · simp [Agent.validate_input, missingOf, FEATURE_NAMES, Agent.itemErr,
      rangeOf, FEATURE_RANGES, scenarioB, scenarioBTail, List.lookup,
      List.findSome?] <;> norm_num
  · simp [Agent.validate_input, missingOf, FEATURE_NAMES, Agent.itemErr,
      rangeOf, FEATURE_RANGES, scenarioB, scenarioBVar, scenarioBTail,
      List.lookup, List.findSome?] <;> norm_num
  · simp [scenarioB, scenarioBVar] <;> norm_num

/-- C3 amended: when a present recognized value is strictly out of range and
every other item is clean, the app variant fails with a range error naming
the feature, the value and both inclusive bounds, while the agent variant
fails with a range message naming the feature and the bounds only (the
message carries no value); and values exactly equal to a bound pass the range
check in both variants. -/
theorem C3_amended_range_error :
    (∀ (r₁ r₂ : Request) (f : String) (q lo hi : ℚ),
      rangeOf f = some (lo, hi) → (q < lo ∨ hi < q) →
      (∀ x ∈ r₁ ++ r₂, App.itemErrs x = []) →
      missingOf (r₁ ++ (f, .num q) :: r₂) = [] →
      App.validate_input (r₁ ++ (f, .num q) :: r₂) = [.range f q lo hi]) ∧
    (∀ (r₁ r₂ : Request) (f : String) (q lo hi : ℚ),
      rangeOf f = some (lo, hi) → (q < lo ∨ hi < q) →
      (∀ x ∈ r₁, Agent.itemErr x = none) →
      missingOf (r₁ ++ (f, .num q) :: r₂) = [] →
      Agent.validate_input (r₁ ++ (f, .num q) :: r₂) =
        (false, .rangeMsg f lo hi)) ∧
    (∀ (f : String) (q lo hi : ℚ),
      rangeOf f = some (lo, hi) → lo ≤ q → q ≤ hi →
      App.itemErrs (f, .num q) = [] ∧ Agent.itemErr (f, .num q) = none) := by
  refine ⟨?_, ?_, fun f q lo hi hr h1 h2 =>
    ⟨itemErrs_in_range f (.num q) q lo hi hr rfl h1 h2,
     agent_itemErr_in_range f q lo hi hr h1 h2⟩⟩
  · intro r₁ r₂ f q lo hi hr hout hclean hmiss
    have h₁ : r₁.flatMap App.itemErrs = [] :=
      List.flatMap_eq_nil_iff.mpr
        (fun x hx => hclean x (List.mem_append.mpr (.inl hx)))
    have h₂ : r₂.flatMap App.itemErrs = [] :=
      List.flatMap_eq_nil_iff.mpr
        (fun x hx => hclean x (List.mem_append.mpr (.inr hx)))
    rw [App.validate_input, hmiss, List.flatMap_append, List.flatMap_cons,
      h₁, h₂, itemErrs_out_of_range f (.num q) q lo hi hr rfl hout]
    rfl
  · intro r₁ r₂ f q lo hi hr hout hclean hmiss
    rw [Agent.validate_input, hmiss,
      findSome?_append_none Agent.itemErr _ r₁ hclean, List.findSome?_cons,
      agent_itemErr_out_of_range f q lo hi hr hout]
    rfl

/-- C3 witness: the amended statement applied at concrete scenario B (value
999 for `prolongued_decelerations`), and at the boundary value 0.019 for
`accelerations`. -/
theorem C3_witness :
    App.validate_input scenarioB =
      [.range "prolongued_decelerations" 999 0 0.005] ∧
    Agent.validate_input scenarioB =
      (false, .rangeMsg "prolongued_decelerations" 0 0.005) ∧
    App.itemErrs ("accelerations", .num 0.019) = [] ∧
    Agent.itemErr ("accelerations", .num 0.019) = none := by
  have hr : rangeOf "prolongued_decelerations" = some (0, 0.005) := by
    norm_num [rangeOf, FEATURE_RANGES, List.lookup]
  have hout : (999 : ℚ) < 0 ∨ (0.005 : ℚ) < 999 := by norm_num
  have hclean : ∀ x ∈ ([] : Request) ++ scenarioBTail, App.itemErrs x = [] := by
    intro x hx
    rw [List.nil_append] at hx
    fin_cases hx <;>
      simp [App.itemErrs, rangeOf, FEATURE_RANGES, pyFloat, List.lookup] <;>
      norm_num
  have hclean' : ∀ x ∈ ([] : Request), Agent.itemErr x = none := by
    intro x hx
    simp at hx
  have hmiss :
      missingOf (([] : Request) ++
        ("prolongued_decelerations", .num 999) :: scenarioBTail) = [] := by
    simp [missingOf, FEATURE_NAMES, scenarioBTail, List.lookup]
  have hra : rangeOf "accelerations" = some (0, 0.019) := by
    simp [rangeOf, FEATURE_RANGES, List.lookup]
  refine ⟨?_, ?_,
    (C3_amended_range_error.2.2 "accelerations" 0.019 0 0.019 hra
      (by norm_num) (by norm_num)).1,
    (C3_amended_range_error.2.2 "accelerations" 0.019 0 0.019 hra
      (by norm_num) (by norm_num)).2⟩
  · exact C3_amended_range_error.1 [] scenarioBTail
      "prolongued_decelerations" 999 0 0.005 hr hout hclean hmiss
  · exact C3_amended_range_error.2.1 [] scenarioBTail
      "prolongued_decelerations" 999 0 0.005 hr hout hclean' hmiss

/-- The sample request with `accelerations` supplied as the string "0.01"
(numeric string, in range after conversion). -/
def reqNumStr : Request :=
  [("prolongued_decelerations", .num 0.002),
   ("abnormal_short_term_variability", .num 50),
   ("percentage_abnormal_long_term_variability", .num 45),
   ("histogram_variance", .num 134),
   ("histogram_median", .num 130),
   ("mean_long_term_variability", .num 25),
   ("histogram_mode", .num 120),
   ("accelerations", .numStr 0.01)]

/-- C4 counterexample: in the app variant a present value that is not a
number (the string "0.01" for `accelerations`) does NOT cause a type
failure — `float()` converts it and validation succeeds, contrary to the
claim that validation fails whenever a present value is non-numeric. -/
theorem C4_counterexample :
    App.validate_input reqNumStr = [] ∧
    ("accelerations", Value.numStr 0.01) ∈ reqNumStr ∧
    isNum (Value.numStr 0.01) = false := by
  refine ⟨?_, by simp [reqNumStr], rfl⟩
  simp [App.validate_input, missingOf, FEATURE_NAMES, App.itemErrs, rangeOf,
    FEATURE_RANGES, pyFloat, reqNumStr, List.lookup] <;> norm_num

/-- C4 amended: the agent variant fails with the type message on any present
non-numeric value (recognized or not) and its typing succeeds only when every
present value is numeric; the app variant never type-checks unrecognized
keys, accepts `float()`-convertible strings for recognized features, and
flags a recognized value as invalid-numeric exactly when `float()` fails. -/
theorem C4_amended_type_checking :
    (∀ (r₁ r₂ : Request) (f : String) (v : Value),
      isNum v = false → (∀ x ∈ r₁, Agent.itemErr x = none) →
      missingOf (r₁ ++ (f, v) :: r₂) = [] →
      Agent.validate_input (r₁ ++ (f, v) :: r₂) = (false, .typeMsg f)) ∧
    (∀ r : Request, Agent.validate_input r = (true, .okMsg) →
      ∀ x ∈ r, isNum x.2 = true) ∧
    (∀ (f : String) (v : Value), rangeOf f = none →
      App.itemErrs (f, v) = []) ∧
    (∀ (f : String) (q lo hi : ℚ), rangeOf f = some (lo, hi) →
      lo ≤ q → q ≤ hi → App.itemErrs (f, .numStr q) = []) ∧
    (∀ (f : String) (lo hi : ℚ), rangeOf f = some (lo, hi) →
      App.itemErrs (f, .badVal) = [.badNum f]) := by
  refine ⟨?_, ?_,
    fun f v h => itemErrs_unrecognized f v h,
    fun f q lo hi hr h1 h2 => itemErrs_in_range f (.numStr q) q lo hi hr rfl h1 h2,
    fun f lo hi hr => itemErrs_bad_value f .badVal lo hi hr rfl⟩
  · intro r₁ r₂ f v hv hclean hmiss
    rw [Agent.validate_input, hmiss,
      findSome?_append_none Agent.itemErr _ r₁ hclean, List.findSome?_cons,
      agent_itemErr_not_num f v hv]
    rfl
  · intro r h x hx
    obtain ⟨_, hitems⟩ := (agent_validate_eq_ok_iff r).mp h
    obtain ⟨q, hq, _⟩ := agent_itemErr_eq_none_inv x.1 x.2
      (by rw [← hitems x hx])
    rw [hq]
    rfl

/-- C4 witness: the amended statement applied at concrete inputs — a `None`
value for `prolongued_decelerations` makes the agent fail with the type
message, and the sample request certifies the only-when direction. -/
theorem C4_witness :
    Agent.validate_input
      (("prolongued_decelerations", .badVal) :: scenarioBTail) =
      (false, .typeMsg "prolongued_decelerations") ∧
    (∀ x ∈ sampleReq, isNum x.2 = true) ∧
    App.itemErrs ("note", .badVal) = [] ∧
    App.itemErrs ("accelerations", .numStr 0.01) = [] ∧
    App.itemErrs ("accelerations", .badVal) = [.badNum "accelerations"] := by
  have hra : rangeOf "accelerations" = some (0, 0.019) := by
    simp [rangeOf, FEATURE_RANGES, List.lookup]
  have hmiss :
      missingOf (([] : Request) ++
        ("prolongued_decelerations", .badVal) :: scenarioBTail) = [] := by
    simp [missingOf, FEATURE_NAMES, scenarioBTail, List.lookup]
  refine ⟨?_,
    C4_amended_type_checking.2.1 sampleReq sample_agent_validate,
    C4_amended_type_checking.2.2.1 "note" .badVal
      (by simp [rangeOf, FEATURE_RANGES, List.lookup]),
    C4_amended_type_checking.2.2.2.1 "accelerations" 0.01 0 0.019 hra
      (by norm_num) (by norm_num),
    C4_amended_type_checking.2.2.2.2 "accelerations" 0 0.019 hra⟩
  exact C4_amended_type_checking.1 [] scenarioBTail
    "prolongued_decelerations" .badVal rfl (by intro x hx; simp at hx) hmiss

/-- The sample request with one extra unrecognized key carrying a
non-numeric value. -/
def reqExtra : Request := sampleReq ++ [("note", .badVal)]

/-- C5 counterexample: in the agent variant an extra unrecognized key with a
non-numeric value makes an otherwise fully valid request FAIL validation
(with the type message for that extra key), contrary to the claim that extra
keys never cause failure; the app variant accepts the same request. -/
theorem C5_counterexample :
    Agent.validate_input reqExtra = (false, .typeMsg "note") ∧
    App.validate_input reqExtra = [] := by
  constructor
  · simp [Agent.validate_input, missingOf, FEATURE_NAMES, Agent.itemErr,
      rangeOf, FEATURE_RANGES, reqExtra, sampleReq, List.lookup,
      List.findSome?] <;> norm_num
  · simp [App.validate_input, missingOf, FEATURE_NAMES, App.itemErrs,
      rangeOf, FEATURE_RANGES, pyFloat, reqExtra, sampleReq, List.lookup]
      <;> norm_num

/-- C5 amended: a request containing all schema features with clean values
passes the app validator with arbitrary extra unrecognized keys; the agent
validator additionally requires every extra value to be numeric — numeric
extra keys are ignored, non-numeric ones fail (see the counterexample). -/
theorem C5_amended_extra_keys :
    (∀ r extra : Request, missingOf r = [] →
      (∀ x ∈ r, App.itemErrs x = []) →
      (∀ x ∈ extra, rangeOf x.1 = none) →
      App.validate_input (r ++ extra) = []) ∧
    (∀ r extra : Request, missingOf r = [] →
      (∀ x ∈ r, Agent.itemErr x = none) →
      (∀ x ∈ extra, rangeOf x.1 = none ∧ isNum x.2 = true) →
      Agent.validate_input (r ++ extra) = (true, .okMsg)) := by
  constructor
  · intro r extra h1 h2 h3
    refine (app_validate_eq_nil_iff _).mpr
      ⟨missingOf_append_eq_nil r extra h1, fun x hx => ?_⟩
    rcases List.mem_append.mp hx with h | h
    · exact h2 x h
    · exact itemErrs_unrecognized x.1 x.2 (h3 x h)
  · intro r extra h1 h2 h3
    refine (agent_validate_eq_ok_iff _).mpr
      ⟨missingOf_append_eq_nil r extra h1, fun x hx => ?_⟩
    rcases List.mem_append.mp hx with h | h
    · exact h2 x h
    · obtain ⟨hu, hn⟩ := h3 x h
      rcases x with ⟨f, v⟩
      cases v with
      | num q => exact agent_itemErr_unrecognized f q hu
      | numStr q => simp [isNum] at hn
      | badVal => simp [isNum] at hn

/-- C5 witness: the amended statement applied to the sample request with a
numeric extra key, which both validators accept. -/
theorem C5_witness :
    App.validate_input (sampleReq ++ [("note", .num 1)]) = [] ∧
    Agent.validate_input (sampleReq ++ [("note", .num 1)]) =
      (true, .okMsg) := by
  obtain ⟨hm, happ⟩ := (app_validate_eq_nil_iff sampleReq).mp
    sample_app_validate
  obtain ⟨_, hagent⟩ := (agent_validate_eq_ok_iff sampleReq).mp
    sample_agent_validate
  have hnote : rangeOf "note" = none := by
    simp [rangeOf, FEATURE_RANGES, List.lookup]
  constructor
  · exact C5_amended_extra_keys.1 sampleReq [("note", .num 1)] hm happ
      (by intro x hx; simp at hx; subst hx; exact hnote)
  · exact C5_amended_extra_keys.2 sampleReq [("note", .num 1)] hm hagent
      (by intro x hx; simp at hx; subst hx; exact ⟨hnote, rfl⟩)

/-- C6: for every request passing validation, vectorization succeeds with
exactly 8 entries in schema order; in the agent variant the i-th entry is
literally the request's (numeric) value for the i-th schema feature, and in
the app variant it is the `float()` conversion of the stored value — equal to
the stored value whenever that value is a number. -/
theorem C6_vectorize_schema_order :
    (∀ r : Request, App.validate_input r = [] →
      ∃ v, App.vectorize r = some v ∧ v.length = 8 ∧
        ∀ (i : ℕ) (f : String), FEATURE_NAMES.get? i = some f →
          ∃ w, r.lookup f = some w ∧ v.get? i = pyFloat w ∧
            ∀ q, w = .num q → v.get? i = some q) ∧
    (∀ r : Request, Agent.validate_input r = (true, .okMsg) →
      ∃ v, Agent.vectorize r = some v ∧ v.length = 8 ∧
        ∀ (i : ℕ) (f : String), FEATURE_NAMES.get? i = some f →
          ∃ q, r.lookup f = some (.num q) ∧ v.get? i = some q) := by
  constructor
  · intro r h
    obtain ⟨hmiss, hitems⟩ := (app_validate_eq_nil_iff r).mp h
    have hsome : ∀ f ∈ FEATURE_NAMES, ((r.lookup f).bind pyFloat).isSome := by
      intro f hf
      obtain ⟨w, hw⟩ := Option.isSome_iff_exists.mp
        ((missingOf_eq_nil_iff r).mp hmiss f hf)
      obtain ⟨lo, hi, hr⟩ := rangeOf_of_mem_features f hf
      obtain ⟨q, hq, _, _⟩ := itemErrs_eq_nil_inv f w lo hi hr
        (hitems (f, w) (lookup_mem f w r hw))
      rw [hw]
      simp [hq]
    obtain ⟨v, hv, hlen, hget⟩ := mapOption_eq_some _ FEATURE_NAMES hsome
    refine ⟨v, hv, by rw [hlen]; rfl, ?_⟩
    intro i f hf
    obtain ⟨w, hw⟩ := Option.isSome_iff_exists.mp
      ((missingOf_eq_nil_iff r).mp hmiss f (List.get?_mem hf))
    have hvi : v.get? i = pyFloat w := by
      rw [hget i, hf, Option.some_bind, hw, Option.some_bind]
    exact ⟨w, hw, hvi, fun q hq => by rw [hvi, hq]; rfl⟩
  · intro r h
    obtain ⟨hmiss, hitems⟩ := (agent_validate_eq_ok_iff r).mp h
    have hsome : ∀ f ∈ FEATURE_NAMES,
        ((r.lookup f).bind
          (fun v => match v with | Value.num q => some q | _ => none)).isSome := by
      intro f hf
      obtain ⟨w, hw⟩ := Option.isSome_iff_exists.mp
        ((missingOf_eq_nil_iff r).mp hmiss f hf)
      obtain ⟨q, hq, _⟩ := agent_itemErr_eq_none_inv f w
        (hitems (f, w) (lookup_mem f w r hw))
      rw [hw, hq]
      rfl
    obtain ⟨v, hv, hlen, hget⟩ := mapOption_eq_some _ FEATURE_NAMES hsome
    refine ⟨v, hv, by rw [hlen]; rfl, ?_⟩
    intro i f hf
    obtain ⟨w, hw⟩ := Option.isSome_iff_exists.mp
      ((missingOf_eq_nil_iff r).mp hmiss f (List.get?_mem hf))
    obtain ⟨q, hq, _⟩ := agent_itemErr_eq_none_inv f w
      (hitems (f, w) (lookup_mem f w r hw))
    subst hq
    refine ⟨q, hw, ?_⟩
    rw [hget i, hf, Option.some_bind, hw, Option.some_bind]

/-- C6 witness: both conjuncts applied at the concrete sample request; the
resulting vector is the sample row with its eight entries. -/
theorem C6_witness :
    App.vectorize sampleReq = some sampleVec ∧
    Agent.vectorize sampleReq = some sampleVec ∧
    sampleVec.length = 8 := by
  obtain ⟨v, hv, hlen, _⟩ :=
    C6_vectorize_schema_order.1 sampleReq sample_app_validate
  obtain ⟨v', hv', _, _⟩ :=
    C6_vectorize_schema_order.2 sampleReq sample_agent_validate
  have hveq : v = sampleVec := by
    rw [sample_app_vectorize] at hv
    exact (Option.some_inj.mp hv).symm
  exact ⟨sample_app_vectorize, sample_agent_vectorize, hveq ▸ hlen⟩

end FetalHealth
